import Mathlib

/-!
Verification of the invoice/chat web application's behaviour against its
specification.  Each section shallowly embeds one route handler (or helper)
of the TypeScript source as Lean definitions and proves the properties the
specification states about it.  JavaScript numbers are idealised as
rationals (`ℚ`) where the code only adds and compares amounts, and as
reals (`ℝ`) where it takes square roots; machine-float rounding and the
non-finite values `NaN`/`Infinity` are outside the model.
-/

/-! ## JSON values

The `extractedData` column is semi-structured JSON.  A value is a string, a
number, a boolean, `null`, or some other truthy structure (array/object,
whose inner shape the code under study never inspects beyond truthiness). -/

inductive JVal where
  | str (s : String)
  | num (q : ℚ)
  | jbool (b : Bool)
  | null
  | other
deriving DecidableEq

/-- JavaScript truthiness of a JSON value: `""`, `0`, `false` and `null`
are falsy, everything else (arrays and objects included) is truthy. -/
def JVal.truthy : JVal → Bool
  | .str s => s ≠ ""
  | .num q => q ≠ 0
  | .jbool b => b
  | .null => false
  | .other => true

/-- A JSON object: field names with values.  `get` is property access,
`none` standing for an absent property (`undefined`). -/
def JObj : Type := List (String × JVal)

def JObj.get (o : JObj) (field : String) : Option JVal :=
  (List.find? (fun p => p.1 == field) o).map (fun p => p.2)

/-! ## Dashboard route (`GET /api/dashboard`): amount extraction and totals -/

namespace Dashboard

/-- Characters removed by `amount.replace(/[₹$€£,\s]/g, '')`: the four
currency symbols, the comma, and whitespace. -/
def isStrippedChar (c : Char) : Bool :=
  c = '₹' || c = '$' || c = '€' || c = '£' || c = ',' || c.isWhitespace

def cleanAmount (s : String) : String :=
  String.mk (s.toList.filter (fun c => !isStrippedChar c))

/-- Decimal value of a digit run, most significant first. -/
def digitsToNat (ds : List Char) : ℕ :=
  ds.foldl (fun n c => 10 * n + (c.toNat - '0'.toNat)) 0

/-- Sign character at the head of the input, with the rest. -/
def parseSign : List Char → ℚ × List Char
  | '-' :: rest => (-1, rest)
  | '+' :: rest => (1, rest)
  | l => (1, l)

/-- Exponent suffix `e`/`E`, optional sign, digits; `0` when absent or
malformed (JavaScript then ignores the tail). -/
def parseExp : List Char → ℤ
  | c :: rest =>
    if c = 'e' || c = 'E' then
      let se : ℤ × List Char :=
        match rest with
        | '-' :: r => (-1, r)
        | '+' :: r => (1, r)
        | r => (1, r)
      let ds := se.2.takeWhile Char.isDigit
      if ds = [] then 0 else se.1 * digitsToNat ds
    else 0
  | [] => 0

/-- JavaScript `parseFloat`: skip leading whitespace, read the longest
prefix `[+-]? digits* (. digits*)? ([eE][+-]?digits)?` holding at least one
mantissa digit, ignore the rest; `none` is `NaN`.  (Non-finite inputs such
as `Infinity` have no rational value and are outside the model.) -/
def parseFloat (s : String) : Option ℚ :=
  let l := s.toList.dropWhile Char.isWhitespace
  let sl := parseSign l
  let intDs := sl.2.takeWhile Char.isDigit
  let afterInt := sl.2.dropWhile Char.isDigit
  let fracDs :=
    match afterInt with
    | '.' :: rest => rest.takeWhile Char.isDigit
    | _ => []
  let afterFrac :=
    match afterInt with
    | '.' :: rest => rest.dropWhile Char.isDigit
    | _ => afterInt
  if intDs = [] ∧ fracDs = [] then none
  else
    let mantissa : ℚ := (digitsToNat intDs : ℚ) + (digitsToNat fracDs : ℚ) / 10 ^ fracDs.length
    some (sl.1 * mantissa * (10 : ℚ) ^ parseExp afterFrac)

/-- The candidate amount fields, in the order the code tries them. -/
def amountFields : List String :=
  ["total_amount", "totalAmount", "grand_total", "grandTotal", "amount"]

/-- One iteration of `extractAmount`'s field loop: `none` means `continue`
(field absent, falsy, a non-numeric string, or neither string nor number). -/
def tryAmountField (data : JObj) (field : String) : Option ℚ :=
  match data.get field with
  | none => none
  | some v =>
    if v.truthy then
      match v with
      | .str s => parseFloat (cleanAmount s)
      | .num q => some q
      | _ => none
    else none

/-- `extractAmount(extractedData)`: `null` input gives `null`; otherwise the
first amount field that is truthy and parses (strings after currency-symbol
/comma/whitespace stripping) gives its value. -/
def extractAmount (extractedData : Option JObj) : Option ℚ :=
  match extractedData with
  | none => none
  | some data => amountFields.findSome? (tryAmountField data)

/-- An `Invoice` row as the dashboard reads it. -/
structure Invoice where
  userId : String
  status : String
  extractedData : Option JObj

/-- The dashboard's database query: the user's invoices whose status is
`processed`. -/
def processedInvoices (table : List Invoice) (userId : String) : List Invoice :=
  table.filter (fun i => i.userId == userId && i.status == "processed")

/-- `totalSpend`: `invoices.reduce((sum, invoice) => sum + (extractAmount(invoice.extractedData) || 0), 0)`. -/
def totalSpend (invoices : List Invoice) : ℚ :=
  invoices.foldl (fun sum invoice => sum + ((extractAmount invoice.extractedData).getD 0)) 0

/-- `totalInvoices = invoices.length`. -/
def totalInvoices (invoices : List Invoice) : ℕ :=
  invoices.length

/-- The specification's description of the sum: the amounts successfully
parsed across the invoices, unparsable ones excluded. -/
def parsedAmounts (invoices : List Invoice) : List ℚ :=
  invoices.filterMap (fun invoice => extractAmount invoice.extractedData)

theorem foldl_add_extract (invoices : List Invoice) (a : ℚ) :
    invoices.foldl (fun sum invoice => sum + ((extractAmount invoice.extractedData).getD 0)) a
      = a + (parsedAmounts invoices).sum := by
  induction invoices generalizing a with
  | nil => simp [parsedAmounts]
  | cons hd tl ih =>
    rw [List.foldl_cons, ih]
    cases h : extractAmount hd.extractedData with
    | none => simp [parsedAmounts, List.filterMap_cons, h]
    | some q =>
      simp only [parsedAmounts, List.filterMap_cons, h, Option.getD_some, List.sum_cons]
      ring

end Dashboard

/-- C1: the dashboard's `totalSpend` equals the sum of the successfully
parsed amounts (via `extractAmount`) over the user's `processed` invoices;
an invoice whose amount fields are all missing or unparsable contributes 0
to `totalSpend` yet is still counted in `totalInvoices`. -/
theorem dashboard_totalSpend_totalInvoices (table : List Dashboard.Invoice) (uid : String) :
    Dashboard.totalSpend (Dashboard.processedInvoices table uid)
        = (Dashboard.parsedAmounts (Dashboard.processedInvoices table uid)).sum
      ∧ Dashboard.totalInvoices (Dashboard.processedInvoices table uid)
        = (Dashboard.processedInvoices table uid).length
      ∧ ∀ invoice : Dashboard.Invoice,
          Dashboard.extractAmount invoice.extractedData = none →
            Dashboard.totalSpend (invoice :: Dashboard.processedInvoices table uid)
                = Dashboard.totalSpend (Dashboard.processedInvoices table uid)
              ∧ Dashboard.totalInvoices (invoice :: Dashboard.processedInvoices table uid)
                = Dashboard.totalInvoices (Dashboard.processedInvoices table uid) + 1 := by
  refine ⟨?_, rfl, ?_⟩
  · have h := Dashboard.foldl_add_extract (Dashboard.processedInvoices table uid) 0
    simpa [Dashboard.totalSpend] using h
  · intro invoice hnone
    constructor
    · have h1 := Dashboard.foldl_add_extract (invoice :: Dashboard.processedInvoices table uid) 0
      have h2 := Dashboard.foldl_add_extract (Dashboard.processedInvoices table uid) 0
      simp only [Dashboard.totalSpend] at *
      rw [h1, h2, Dashboard.parsedAmounts, List.filterMap_cons, hnone]
      rfl
    · simp [Dashboard.totalInvoices]

/-! ## Invoice upload route (`POST /api/invoices`): error handling -/

namespace Upload

/-- `haystack.includes(needle)`: substring containment. -/
def strContains (haystack needle : String) : Bool :=
  decide (needle.toList <:+: haystack.toList)

/-- What the upload route's catch block leaves behind for a processing
error: the invoice row's new status and stored `extractedData.error` /
`details`, and the HTTP status and error message of the JSON response. -/
structure ErrorOutcome where
  invoiceStatus : String
  storedError : String
  storedDetails : String
  httpStatus : ℕ
  responseError : String
deriving DecidableEq

/-- The catch block of the upload route, as a function of the thrown
error's message: a message containing `PDF_ENCRYPTED` is special-cased to
the encrypted-PDF outcome with HTTP 400, anything else to the generic
`Processing failed` outcome with HTTP 500. -/
def handleUploadError (message : String) : ErrorOutcome :=
  if strContains message "PDF_ENCRYPTED" then
    { invoiceStatus := "error"
      storedError := "PDF file is encrypted or password-protected"
      storedDetails := "Cannot process encrypted PDFs. Please provide an unprotected PDF file."
      httpStatus := 400
      responseError := "PDF file is encrypted or password-protected" }
  else
    { invoiceStatus := "error"
      storedError := "Processing failed"
      storedDetails := message
      httpStatus := 500
      responseError := "Processing failed" }

end Upload

/-- C2: when the upload route's processing fails with an error whose
message contains `PDF_ENCRYPTED`, the invoice is marked `error`, the stored
error message contains "encrypted or password-protected", and the HTTP
response is a 400 carrying that same message. -/
theorem upload_encrypted_pdf_error (message : String)
    (h : Upload.strContains message "PDF_ENCRYPTED" = true) :
    (Upload.handleUploadError message).invoiceStatus = "error"
      ∧ Upload.strContains (Upload.handleUploadError message).storedError
          "encrypted or password-protected" = true
      ∧ (Upload.handleUploadError message).httpStatus = 400
      ∧ (Upload.handleUploadError message).responseError
        = (Upload.handleUploadError message).storedError := by
  rw [Upload.handleUploadError, if_pos h]
  refine ⟨rfl, by decide, rfl, rfl⟩

/-- C2 witness: the theorem at the concrete message
`Python service returned 500: PDF_ENCRYPTED`. -/
theorem upload_encrypted_pdf_error_witness :
    (Upload.handleUploadError "Python service returned 500: PDF_ENCRYPTED").invoiceStatus = "error"
      ∧ Upload.strContains
          (Upload.handleUploadError "Python service returned 500: PDF_ENCRYPTED").storedError
          "encrypted or password-protected" = true
      ∧ (Upload.handleUploadError "Python service returned 500: PDF_ENCRYPTED").httpStatus = 400
      ∧ (Upload.handleUploadError "Python service returned 500: PDF_ENCRYPTED").responseError
        = (Upload.handleUploadError "Python service returned 500: PDF_ENCRYPTED").storedError :=
  upload_encrypted_pdf_error "Python service returned 500: PDF_ENCRYPTED" (by decide)

/-! ## Auth configuration: credentials `authorize` and the Google `signIn` callback -/

namespace Auth

/-- A `User` row as `authorize` reads it. -/
structure DbUser where
  id : String
  name : Option String
  email : String
  passwordHash : Option String

/-- The user object `authorize` resolves with. -/
structure AuthUser where
  id : String
  name : Option String
  email : String
deriving DecidableEq

/-- `!user?.passwordHash`: the hash is truthy only when present and
non-empty. -/
def hashTruthy : Option String → Bool
  | none => false
  | some h => h ≠ ""

/-- The credentials provider's `authorize`.  `db` is the
`prisma.user.findUnique({where: {email}})` call: outer `none` is a thrown
database error (caught, yielding `null`), inner `Option` is row presence.
`cmp` is `bcrypt.compare(password, hash)`.  The demo branch runs before any
database access; `!user?.passwordHash` (row absent, hash absent, or hash
`""`) yields `null`. -/
def authorize (demoEmail demoPassword : String)
    (db : String → Option (Option DbUser))
    (cmp : String → String → Bool)
    (email password : String) : Option AuthUser :=
  if email = demoEmail ∧ password = demoPassword then
    some { id := "demo-user-id", name := some "Demo User", email := demoEmail }
  else
    match db email with
    | none => none
    | some none => none
    | some (some user) =>
      match user.passwordHash with
      | none => none
      | some hash =>
        if hash = "" then none
        else if cmp password hash then
          some { id := user.id, name := user.name, email := user.email }
        else none

end Auth

/-- C3: `authorize` resolves the demo user (id `demo-user-id`) for exactly
the configured demo email/password pair, for every database and comparison
function (the database is never consulted); for another email, a looked-up
row without a truthy password hash yields `null`, and a row with hash `h`
succeeds precisely when the supplied password matches `h` under `bcrypt`
comparison. -/
theorem authorize_demo_and_password (dE dP : String)
    (db : String → Option (Option Auth.DbUser))
    (cmp : String → String → Bool) (email password : String) :
    (Auth.authorize dE dP db cmp dE dP
        = some { id := "demo-user-id", name := some "Demo User", email := dE })
      ∧ (email ≠ dE →
          ∀ row : Option Auth.DbUser, db email = some row →
            (∀ user, row = some user → Auth.hashTruthy user.passwordHash = false) →
              Auth.authorize dE dP db cmp email password = none)
      ∧ (email ≠ dE →
          ∀ user : Auth.DbUser, ∀ h : String, db email = some (some user) →
            user.passwordHash = some h → h ≠ "" →
              (Auth.authorize dE dP db cmp email password
                  = some { id := user.id, name := user.name, email := user.email }
                ↔ cmp password h = true)) := by
  refine ⟨?_, ?_, ?_⟩
  · rw [Auth.authorize, if_pos ⟨rfl, rfl⟩]
  · intro hne row hdb hfalsy
    rw [Auth.authorize, if_neg (fun hc => hne hc.1), hdb]
    cases row with
    | none => rfl
    | some user =>
      have hf := hfalsy user rfl
      cases hh : user.passwordHash with
      | none => simp [hh]
      | some s =>
        rw [hh] at hf
        have hs : s = "" := by
          by_contra hscon
          simp [Auth.hashTruthy, hscon] at hf
        simp [hh, hs]
  · intro hne user h hdb hhash hne2
    rw [Auth.authorize, if_neg (fun hc => hne hc.1), hdb]
    simp only [hhash]
    rw [if_neg hne2]
    constructor
    · intro hres
      by_contra hcmp
      rw [Bool.not_eq_true] at hcmp
      rw [if_neg (by simp [hcmp])] at hres
      exact Option.noConfusion hres
    · intro hcmp
      rw [if_pos hcmp]

namespace Auth

/-- A linked external-provider `Account` row. -/
structure AccountRow where
  provider : String

/-- A `User` row with its linked accounts, as the `signIn` callback's
`findUnique(... include: {accounts: true})` returns it. -/
structure UserWithAccounts where
  accounts : List AccountRow

/-- The result of the `signIn` callback's database lookup: `err` is a
thrown error (caught by the callback), `ok` the found row or its absence. -/
inductive LookupResult where
  | err
  | ok (row : Option UserWithAccounts)

/-- The `signIn` callback of the auth configuration: for the Google
provider it looks up the user by email; a row with a linked Google account,
a row without one (the linking scenario), no row (new account creation) and
a thrown lookup error all return `true`; every other provider returns
`true` immediately. -/
def signInCallback (provider : String) (lookup : LookupResult) : Bool :=
  if provider = "google" then
    match lookup with
    | .err => true
    | .ok none => true
    | .ok (some existingUser) =>
      if existingUser.accounts.any (fun acc => acc.provider == "google") then
        true
      else
        true
  else true

end Auth

/-- C8: the Google OAuth `signIn` callback allows the sign-in in every
case — for every provider and every outcome of the database lookup,
including a thrown error — so provider/database failures never reject a
sign-in. -/
theorem signIn_always_allows (provider : String) (lookup : Auth.LookupResult) :
    Auth.signInCallback provider lookup = true := by
  rw [Auth.signInCallback.eq_def]
  split
  · cases lookup with
    | err => rfl
    | ok row =>
      cases row with
      | none => rfl
      | some existingUser =>
        dsimp only
        split <;> rfl
  · rfl

/-! ## Chat routes: session creation (`POST /api/chat`) and deletion
(`DELETE /api/chats/:id`) -/

namespace Chat

/-- A `ChatSession` row. -/
structure ChatRow where
  id : String
  userId : String
  title : String
deriving DecidableEq

/-- A `Message` row. -/
structure MessageRow where
  id : String
  chatId : String
  role : String
  content : String
deriving DecidableEq

/-- The chat tables of the database. -/
structure ChatDb where
  chats : List ChatRow
  messages : List MessageRow
deriving DecidableEq

/-- Whether the authenticated user owns a chat with this id:
`prisma.chatSession.findFirst({where: {id: chatId, userId}})` finds a row. -/
def ownsChat (db : ChatDb) (userId chatId : String) : Prop :=
  ∃ c ∈ db.chats, c.id = chatId ∧ c.userId = userId

instance (db : ChatDb) (userId chatId : String) :
    Decidable (ownsChat db userId chatId) := by
  unfold ownsChat
  infer_instance

/-- The DELETE handler after authentication and user lookup: verify the
chat belongs to the user (else 404 and no change), then
`message.deleteMany({where: {chatId}})` followed by
`chatSession.delete({where: {id: chatId}})`; on success respond 200. -/
def deleteChat (db : ChatDb) (userId chatId : String) : ℕ × ChatDb :=
  match db.chats.find? (fun c => c.id == chatId && c.userId == userId) with
  | none => (404, db)
  | some _ =>
    (200,
      { chats := db.chats.filter (fun c => !(c.id == chatId))
        messages := db.messages.filter (fun m => !(m.chatId == chatId)) })

theorem find?_owned_iff (db : ChatDb) (userId chatId : String) :
    (db.chats.find? (fun c => c.id == chatId && c.userId == userId)).isSome
      ↔ ownsChat db userId chatId := by
  rw [List.find?_isSome, ownsChat]
  constructor
  · rintro ⟨c, hc, hp⟩
    refine ⟨c, hc, ?_, ?_⟩
    · exact beq_iff_eq.mp (Bool.and_elim_left hp)
    · exact beq_iff_eq.mp (Bool.and_elim_right hp)
  · rintro ⟨c, hc, h1, h2⟩
    exact ⟨c, hc, by simp [h1, h2]⟩

end Chat

/-- C4: a DELETE of a chat the authenticated user owns answers 200, removes
every message of that chat and the chat row itself, while every other chat
and every message of another chat survives unchanged and nothing is added;
when the user owns no chat with that id the handler answers 404 and the
database is untouched. -/
theorem deleteChat_cleanup (db : Chat.ChatDb) (userId chatId : String) :
    (Chat.ownsChat db userId chatId →
        (Chat.deleteChat db userId chatId).1 = 200
          ∧ (∀ m ∈ (Chat.deleteChat db userId chatId).2.messages, m.chatId ≠ chatId)
          ∧ (∀ c ∈ (Chat.deleteChat db userId chatId).2.chats, c.id ≠ chatId)
          ∧ (∀ m ∈ db.messages, m.chatId ≠ chatId →
              m ∈ (Chat.deleteChat db userId chatId).2.messages)
          ∧ (∀ c ∈ db.chats, c.id ≠ chatId →
              c ∈ (Chat.deleteChat db userId chatId).2.chats)
          ∧ (∀ m ∈ (Chat.deleteChat db userId chatId).2.messages, m ∈ db.messages)
          ∧ (∀ c ∈ (Chat.deleteChat db userId chatId).2.chats, c ∈ db.chats))
      ∧ (¬ Chat.ownsChat db userId chatId →
          (Chat.deleteChat db userId chatId).1 = 404
            ∧ (Chat.deleteChat db userId chatId).2 = db) := by
  constructor
  · intro howns
    have hsome : (db.chats.find? (fun c => c.id == chatId && c.userId == userId)).isSome :=
      (Chat.find?_owned_iff db userId chatId).mpr howns
    obtain ⟨c0, hc0⟩ := Option.isSome_iff_exists.mp hsome
    rw [Chat.deleteChat, hc0]
    refine ⟨rfl, ?_, ?_, ?_, ?_, ?_, ?_⟩
    · intro m hm
      have := (List.mem_filter.mp hm).2
      simpa using this
    · intro c hc
      have := (List.mem_filter.mp hc).2
      simpa using this
    · intro m hm hne
      exact List.mem_filter.mpr ⟨hm, by simpa using hne⟩
    · intro c hc hne
      exact List.mem_filter.mpr ⟨hc, by simpa using hne⟩
    · intro m hm
      exact (List.mem_filter.mp hm).1
    · intro c hc
      exact (List.mem_filter.mp hc).1
  · intro hnot
    have hnone : db.chats.find? (fun c => c.id == chatId && c.userId == userId) = none := by
      by_contra hcon
      exact hnot ((Chat.find?_owned_iff db userId chatId).mp
        (Option.isSome_iff_ne_none.mpr hcon))
    rw [Chat.deleteChat, hnone]
    exact ⟨rfl, rfl⟩

namespace Chat

/-- `prompt.slice(0, 32)`: the first 32 UTF-16 units of the prompt (code
points in the model). -/
def sliceTake (s : String) (n : ℕ) : String :=
  String.mk (s.toList.take n)

/-- The title given to a newly created session:
`prompt.slice(0, 32) || "New chat"`. -/
def newChatTitle (prompt : String) : String :=
  if sliceTake prompt 32 = "" then "New chat" else sliceTake prompt 32

/-- The POST handler's create-if-absent step for the chat session: look the
given id up among the user's chats (no id looks nothing up), and when
nothing is found create a fresh session (`freshId`) titled from the
prompt. -/
def resolveChat (chats : List ChatRow) (userId : String) (chatId : Option String)
    (prompt : String) (freshId : String) : ChatRow :=
  let found :=
    match chatId with
    | some cid => chats.find? (fun c => c.id == cid && c.userId == userId)
    | none => none
  match found with
  | some c => c
  | none => { id := freshId, userId := userId, title := newChatTitle prompt }

theorem sliceTake_ne_empty (s : String) (n : ℕ) (hs : s ≠ "") (hn : n ≠ 0) :
    sliceTake s n ≠ "" := by
  rw [sliceTake]
  intro hcon
  have hdata : s.toList.take n = [] := by
    have := congrArg String.toList hcon
    simpa using this
  rcases List.take_eq_nil_iff.mp hdata with h | h
  · exact hn h
  · exact hs (by
      cases s with
      | mk data => simp [String.toList] at h; simp [h])

end Chat

/-- C5: for a non-empty prompt, when no chat id is supplied, or the
supplied id matches none of the user's chats, the handler creates a fresh
session whose title is the first 32 characters of the prompt — the whole
prompt when it has at most 32 characters. -/
theorem new_chat_titled_from_prompt (chats : List Chat.ChatRow) (userId : String)
    (chatId : Option String) (prompt freshId : String)
    (hprompt : prompt ≠ "")
    (hmiss : ∀ cid, chatId = some cid →
      ∀ c ∈ chats, ¬(c.id = cid ∧ c.userId = userId)) :
    Chat.resolveChat chats userId chatId prompt freshId
        = { id := freshId, userId := userId, title := Chat.sliceTake prompt 32 }
      ∧ (prompt.toList.length ≤ 32 →
          (Chat.resolveChat chats userId chatId prompt freshId).title = prompt) := by
  have hres : Chat.resolveChat chats userId chatId prompt freshId
      = { id := freshId, userId := userId, title := Chat.newChatTitle prompt } := by
    cases chatId with
    | none => rfl
    | some cid =>
      have hnone : chats.find? (fun c => c.id == cid && c.userId == userId) = none := by
        rw [List.find?_eq_none]
        intro c hc
        have hnc := hmiss cid rfl c hc
        simp only [Bool.and_eq_true, beq_iff_eq]
        exact fun hb => hnc hb
      show (match chats.find? (fun c => c.id == cid && c.userId == userId) with
        | some c => c
        | none => { id := freshId, userId := userId, title := Chat.newChatTitle prompt }) = _
      rw [hnone]
  have htitle : Chat.newChatTitle prompt = Chat.sliceTake prompt 32 := by
    rw [Chat.newChatTitle,
      if_neg (Chat.sliceTake_ne_empty prompt 32 hprompt (by decide))]
  constructor
  · rw [hres, htitle]
  · intro hlen
    rw [hres]
    show Chat.newChatTitle prompt = prompt
    rw [htitle, Chat.sliceTake, List.take_of_length_le hlen]
    cases prompt with
    | mk data => rfl

/-- C5 witness: the theorem at the concrete prompt `"Hello assistant"`,
an empty chat table and no supplied chat id. -/
theorem new_chat_titled_from_prompt_witness :
    Chat.resolveChat [] "user-1" none "Hello assistant" "fresh-1"
        = { id := "fresh-1", userId := "user-1"
            title := Chat.sliceTake "Hello assistant" 32 }
      ∧ ("Hello assistant".toList.length ≤ 32 →
          (Chat.resolveChat [] "user-1" none "Hello assistant" "fresh-1").title
            = "Hello assistant") :=
  new_chat_titled_from_prompt [] "user-1" none "Hello assistant" "fresh-1"
    (by decide) (fun cid hcid => by simp at hcid)

/-! ## Chat route: the `text/event-stream` response (`POST /api/chat`) -/

namespace Chat

/-- One `data:` frame of the chat stream. -/
inductive Frame where
  | start (chatId messageId : String)
  | chunk (content : String) (chatId : String)
  | done (messageId fullText chatId : String)
  | error (errMsg details : String)
deriving DecidableEq

def Frame.isStart : Frame → Bool
  | .start _ _ => true
  | _ => false

/-- The chunk's `content` field, for chunk frames. -/
def Frame.chunkContent : Frame → Option String
  | .chunk content _ => some content
  | _ => none

/-- The per-character loop: `fullText += char` then a `chunk` frame per
character; returns the emitted frames and the accumulated `fullText`. -/
def chunkLoop (chatId : String) : List Char → String → List Frame × String
  | [], fullText => ([], fullText)
  | c :: rest, fullText =>
    let step := chunkLoop chatId rest (fullText.push c)
    (Frame.chunk (String.singleton c) chatId :: step.1, step.2)

/-- The stream body when nothing throws: a `start` frame, the character
chunks, the assistant-message save, then one `done` frame carrying the
accumulated `fullText`. -/
def streamSuccess (chatId messageId response : String) : List Frame :=
  let body := chunkLoop chatId response.toList ""
  Frame.start chatId messageId :: body.1 ++ [Frame.done messageId body.2 chatId]

/-- The stream as emitted: `none` for an untroubled run; `some (k, details)`
for an exception thrown after `k` frames went out, which the catch block
turns into a final `error` frame inside the stream before closing it. -/
def streamRun (chatId messageId response : String) :
    Option (ℕ × String) → List Frame
  | none => streamSuccess chatId messageId response
  | some (k, details) =>
    (streamSuccess chatId messageId response).take k
      ++ [Frame.error "Failed to process message" details]

/-- The route's `new Response(stream, {headers: ...})`: HTTP status 200 (the
constructor's default — no error path changes it) alongside the frames. -/
def chatRouteResult (chatId messageId response : String)
    (failure : Option (ℕ × String)) : ℕ × List Frame :=
  (200, streamRun chatId messageId response failure)

/-- The contents of a frame list's chunk frames, in order. -/
def chunkContents (frames : List Frame) : List String :=
  frames.filterMap Frame.chunkContent

theorem chunkLoop_spec (chatId : String) (l : List Char) (acc : String) :
    (chunkLoop chatId l acc).1 = l.map (fun c => Frame.chunk (String.singleton c) chatId)
      ∧ (chunkLoop chatId l acc).2 = acc ++ String.mk l := by
  induction l generalizing acc with
  | nil =>
    refine ⟨rfl, ?_⟩
    show acc = acc ++ String.mk []
    cases acc with
    | mk data => show String.mk data = String.mk (data ++ []); rw [List.append_nil]
  | cons c rest ih =>
    obtain ⟨ih1, ih2⟩ := ih (acc.push c)
    refine ⟨?_, ?_⟩
    · show Frame.chunk (String.singleton c) chatId :: (chunkLoop chatId rest (acc.push c)).1 = _
      rw [ih1, List.map_cons]
    · show (chunkLoop chatId rest (acc.push c)).2 = acc ++ String.mk (c :: rest)
      rw [ih2]
      cases acc with
      | mk data =>
        show String.mk ((data ++ [c]) ++ rest) = String.mk (data ++ (c :: rest))
        rw [List.append_assoc, List.singleton_append]

theorem streamSuccess_eq (chatId messageId response : String) :
    streamSuccess chatId messageId response
      = Frame.start chatId messageId
          :: (response.toList.map (fun c => Frame.chunk (String.singleton c) chatId)
              ++ [Frame.done messageId response chatId]) := by
  obtain ⟨h1, h2⟩ := chunkLoop_spec chatId response.toList ""
  rw [streamSuccess]
  have hresp : ("" : String) ++ String.mk response.toList = response := by
    cases response with
    | mk data => rfl
  rw [h1, h2, hresp, List.cons_append]

theorem chunkContent_of_map (l : List Char) (chatId : String) :
    (l.map (fun c => Frame.chunk (String.singleton c) chatId)).filterMap Frame.chunkContent
      = l.map String.singleton := by
  induction l with
  | nil => rfl
  | cons c rest ih =>
    simp only [List.map_cons, List.filterMap_cons, Frame.chunkContent, ih]

theorem join_singleton_chars (s : String) :
    String.join (s.toList.map String.singleton) = s := by
  rw [String.join_eq]
  have hflat : ∀ l : List Char, ((l.map String.singleton).map String.data).flatten = l := by
    intro l
    induction l with
    | nil => rfl
    | cons c rest ih =>
      simp only [List.map_cons, List.flatten_cons, ih]
      simp [String.singleton]
  cases s with
  | mk data =>
    show String.mk ((((String.mk data).toList.map String.singleton).map String.data).flatten)
      = String.mk data
    rw [show (String.mk data).toList = data from rfl, hflat]

end Chat

/-- C6: an untroubled chat stream is exactly one `start` frame, then one
`chunk` frame per character of the generated response in order, then one
`done` frame whose `fullText` is the concatenation of the chunk contents
(the response itself); a failure during streaming leaves the frames already
sent followed by a single `error` frame inside the stream, and the HTTP
status of the response is 200 in the failure case exactly as in the
success case. -/
theorem chat_stream_frames (chatId messageId response : String) :
    ((Chat.streamRun chatId messageId response none).head?
        = some (Chat.Frame.start chatId messageId))
      ∧ ((Chat.streamRun chatId messageId response none).countP Chat.Frame.isStart = 1)
      ∧ (Chat.chunkContents (Chat.streamRun chatId messageId response none)
          = response.toList.map String.singleton)
      ∧ ((Chat.streamRun chatId messageId response none).getLast?
          = some (Chat.Frame.done messageId
              (String.join (Chat.chunkContents (Chat.streamRun chatId messageId response none)))
              chatId))
      ∧ (∀ k details,
          Chat.streamRun chatId messageId response (some (k, details))
              = (Chat.streamRun chatId messageId response none).take k
                  ++ [Chat.Frame.error "Failed to process message" details]
            ∧ (Chat.chatRouteResult chatId messageId response (some (k, details))).1
              = (Chat.chatRouteResult chatId messageId response none).1) := by
  have hrun : Chat.streamRun chatId messageId response none
      = Chat.Frame.start chatId messageId
          :: (response.toList.map (fun c => Chat.Frame.chunk (String.singleton c) chatId)
              ++ [Chat.Frame.done messageId response chatId]) := by
    rw [Chat.streamRun]
    exact Chat.streamSuccess_eq chatId messageId response
  have hcc : Chat.chunkContents (Chat.streamRun chatId messageId response none)
      = response.toList.map String.singleton := by
    rw [hrun, Chat.chunkContents, List.filterMap_cons]
    show List.filterMap _ _ = _
    rw [List.filterMap_append, Chat.chunkContent_of_map]
    show response.toList.map String.singleton ++ [] = _
    rw [List.append_nil]
  refine ⟨?_, ?_, hcc, ?_, ?_⟩
  · rw [hrun]; rfl
  · rw [hrun, List.countP_cons, List.countP_append]
    have hchunks : (response.toList.map
        (fun c => Chat.Frame.chunk (String.singleton c) chatId)).countP Chat.Frame.isStart
          = 0 := by
      rw [List.countP_eq_zero]
      intro f hf
      obtain ⟨c, _, hc⟩ := List.mem_map.mp hf
      rw [← hc]
      simp [Chat.Frame.isStart]
    rw [hchunks]
    rfl
  · rw [hcc, Chat.join_singleton_chars, hrun, ← List.cons_append, List.getLast?_concat]
  · intro k details
    exact ⟨rfl, rfl⟩

/-! ## Chat route: `cosineSimilarity` and `findSimilarInvoices` -/

namespace Chat

/-- The accumulator loop of `cosineSimilarity`: for each index the products
`vecA[i]*vecB[i]`, `vecA[i]*vecA[i]`, `vecB[i]*vecB[i]` are summed into
`(dotProduct, normA, normB)`. -/
noncomputable def simSums : List ℝ → List ℝ → ℝ × ℝ × ℝ
  | a :: as, b :: bs =>
    let r := simSums as bs
    (a * b + r.1, a * a + r.2.1, b * b + r.2.2)
  | _, _ => (0, 0, 0)

/-- `cosineSimilarity(vecA, vecB)`: throws (`none`) on a length mismatch,
returns `0` when either accumulated square-sum is zero, else
`dotProduct / (Math.sqrt(normA) * Math.sqrt(normB))`. -/
noncomputable def cosineSimilarity (vecA vecB : List ℝ) : Option ℝ :=
  if vecA.length ≠ vecB.length then none
  else if (simSums vecA vecB).2.1 = 0 ∨ (simSums vecA vecB).2.2 = 0 then some 0
  else some ((simSums vecA vecB).1
      / (Real.sqrt (simSums vecA vecB).2.1 * Real.sqrt (simSums vecA vecB).2.2))

/-- The specification's dot product of two vectors. -/
noncomputable def dotProduct (a b : List ℝ) : ℝ :=
  ((a.zip b).map (fun p => p.1 * p.2)).sum

noncomputable def sumSquares (a : List ℝ) : ℝ :=
  (a.map (fun x => x * x)).sum

/-- The specification's magnitude (Euclidean norm) of a vector. -/
noncomputable def magnitude (a : List ℝ) : ℝ :=
  Real.sqrt (sumSquares a)

theorem simSums_eq (a : List ℝ) : ∀ b : List ℝ, a.length = b.length →
    simSums a b = (dotProduct a b, sumSquares a, sumSquares b) := by
  induction a with
  | nil =>
    intro b hb
    cases b with
    | nil => rfl
    | cons y ys => simp at hb
  | cons x xs ih =>
    intro b hb
    cases b with
    | nil => simp at hb
    | cons y ys =>
      have h' : xs.length = ys.length := by simpa using hb
      have ihr := ih ys h'
      show (x * y + (simSums xs ys).1, x * x + (simSums xs ys).2.1,
        y * y + (simSums xs ys).2.2) = _
      rw [ihr]
      simp [dotProduct, sumSquares]

theorem sumSquares_nonneg (a : List ℝ) : 0 ≤ sumSquares a := by
  induction a with
  | nil => exact le_refl 0
  | cons x xs ih =>
    show (0 : ℝ) ≤ x * x + sumSquares xs
    have := mul_self_nonneg x
    linarith

theorem head_sq_zero_of_sumSquares_zero (x : ℝ) (xs : List ℝ)
    (h : sumSquares (x :: xs) = 0) : x = 0 ∧ sumSquares xs = 0 := by
  have hx := mul_self_nonneg x
  have hxs := sumSquares_nonneg xs
  have hsum : x * x + sumSquares xs = 0 := h
  constructor
  · have hxx : x * x = 0 := by linarith
    exact mul_self_eq_zero.mp hxx
  · linarith

theorem dot_eq_zero_left : ∀ (a b : List ℝ), sumSquares a = 0 → dotProduct a b = 0 := by
  intro a
  induction a with
  | nil =>
    intro b _
    cases b <;> rfl
  | cons x xs ih =>
    intro b hz
    obtain ⟨hx, hxs⟩ := head_sq_zero_of_sumSquares_zero x xs hz
    cases b with
    | nil => rfl
    | cons y ys =>
      show ((List.zip (x :: xs) (y :: ys)).map (fun p => p.1 * p.2)).sum = 0
      rw [List.zip_cons_cons, List.map_cons, List.sum_cons]
      have hr : dotProduct xs ys = 0 := ih ys hxs
      rw [hx]
      show 0 * y + dotProduct xs ys = 0
      rw [hr, zero_mul, add_zero]

theorem dot_eq_zero_right : ∀ (a b : List ℝ), sumSquares b = 0 → dotProduct a b = 0 := by
  intro a
  induction a with
  | nil =>
    intro b _
    cases b <;> rfl
  | cons x xs ih =>
    intro b hz
    cases b with
    | nil => rfl
    | cons y ys =>
      obtain ⟨hy, hys⟩ := head_sq_zero_of_sumSquares_zero y ys hz
      show ((List.zip (x :: xs) (y :: ys)).map (fun p => p.1 * p.2)).sum = 0
      rw [List.zip_cons_cons, List.map_cons, List.sum_cons]
      have hr : dotProduct xs ys = 0 := ih ys hys
      rw [hy]
      show x * 0 + dotProduct xs ys = 0
      rw [hr, mul_zero, add_zero]

end Chat

/-- C7: for equal-length vectors, `cosineSimilarity` returns their dot
product divided by the product of their magnitudes (Euclidean norms) —
when either vector is all-zero the code's explicit `0` coincides with that
quotient, whose denominator (and, the vector being zero, numerator) is
then zero. -/
theorem cosineSimilarity_dot_over_norms (vecA vecB : List ℝ)
    (h : vecA.length = vecB.length) :
    Chat.cosineSimilarity vecA vecB
      = some (Chat.dotProduct vecA vecB
          / (Chat.magnitude vecA * Chat.magnitude vecB)) := by
  rw [Chat.cosineSimilarity, if_neg (fun hc => hc h), Chat.simSums_eq vecA vecB h]
  dsimp only
  by_cases hz : Chat.sumSquares vecA = 0 ∨ Chat.sumSquares vecB = 0
  · rw [if_pos hz]
    have hdot : Chat.dotProduct vecA vecB = 0 := by
      cases hz with
      | inl h0 => exact Chat.dot_eq_zero_left vecA vecB h0
      | inr h0 => exact Chat.dot_eq_zero_right vecA vecB h0
    rw [hdot, zero_div]
  · rw [if_neg hz]
    rfl

/-- C7 witness: the theorem at the concrete vectors `[1, 2]` and `[3, 4]`. -/
theorem cosineSimilarity_dot_over_norms_witness :
    Chat.cosineSimilarity [(1 : ℝ), 2] [(3 : ℝ), 4]
      = some (Chat.dotProduct [(1 : ℝ), 2] [(3 : ℝ), 4]
          / (Chat.magnitude [(1 : ℝ), 2] * Chat.magnitude [(3 : ℝ), 4])) :=
  cosineSimilarity_dot_over_norms [(1 : ℝ), 2] [(3 : ℝ), 4] rfl

namespace Chat

/-- An `Invoice` row as `findSimilarInvoices` reads it. -/
structure InvoiceRow where
  id : String
  userId : String
  status : String
  filename : String
  embeddings : Option String

/-- One search result: the invoice spread together with its
`similarity_score`. -/
structure ScoredInvoice where
  invoice : InvoiceRow
  similarity_score : ℝ

/-- `findSimilarInvoices`' database query: the user's `processed` invoices
whose `embeddings` column is not null. -/
def invoicesWithEmbeddings (table : List InvoiceRow) (userId : String) : List InvoiceRow :=
  table.filter (fun i => i.userId == userId && i.status == "processed" && i.embeddings.isSome)

/-- The descending order `(a, b) => b.similarity_score - a.similarity_score`
sorts by. -/
def scoreGE (a b : ScoredInvoice) : Prop :=
  b.similarity_score ≤ a.similarity_score

noncomputable instance : DecidableRel scoreGE :=
  fun a b => inferInstanceAs (Decidable (b.similarity_score ≤ a.similarity_score))

instance : IsTotal ScoredInvoice scoreGE :=
  ⟨fun a b => (le_total b.similarity_score a.similarity_score).imp id id⟩

instance : IsTrans ScoredInvoice scoreGE :=
  ⟨fun _ _ _ h1 h2 => le_trans h2 h1⟩

/-- Per-invoice scoring inside the `map`'s try/catch: `JSON.parse` the
stored embeddings string, score it against the query embedding; a parse
error, or the length-mismatch throw of `cosineSimilarity`, is caught and
the invoice yields `null` (later filtered out). -/
noncomputable def scoreInvoice (parseJson : String → Option (List ℝ))
    (queryEmbedding : List ℝ) (invoice : InvoiceRow) : Option ScoredInvoice :=
  invoice.embeddings.bind fun s =>
    (parseJson s).bind fun emb =>
      (cosineSimilarity queryEmbedding emb).map fun sim =>
        { invoice := invoice, similarity_score := sim }

/-- `findSimilarInvoices(queryEmbedding, userId)`: score each invoice with
embeddings, drop the failures, sort by similarity descending, return the
top 10. -/
noncomputable def findSimilarInvoices (parseJson : String → Option (List ℝ))
    (queryEmbedding : List ℝ) (table : List InvoiceRow) (userId : String) :
    List ScoredInvoice :=
  let invoices := invoicesWithEmbeddings table userId
  let similarities := invoices.filterMap (scoreInvoice parseJson queryEmbedding)
  (List.insertionSort scoreGE similarities).take 10

theorem scoreInvoice_some (parseJson : String → Option (List ℝ))
    (queryEmbedding : List ℝ) (invoice : InvoiceRow) (r : ScoredInvoice)
    (h : scoreInvoice parseJson queryEmbedding invoice = some r) :
    r.invoice = invoice
      ∧ ∃ s emb, invoice.embeddings = some s ∧ parseJson s = some emb := by
  rw [scoreInvoice] at h
  obtain ⟨s, hs, h2⟩ := Option.bind_eq_some.mp h
  obtain ⟨emb, hp, h3⟩ := Option.bind_eq_some.mp h2
  obtain ⟨sim, _, h4⟩ := Option.map_eq_some'.mp h3
  refine ⟨?_, s, emb, hs, hp⟩
  cases h4
  rfl

end Chat

/-- C9: `findSimilarInvoices` returns at most 10 results, sorted by
non-increasing `similarity_score`, each drawn from the user's `processed`
invoices with non-null embeddings whose embeddings string parses; an
invoice whose stored embeddings fail to parse is silently excluded, never
an error of the whole search. -/
theorem findSimilarInvoices_top10_sorted (parseJson : String → Option (List ℝ))
    (queryEmbedding : List ℝ) (table : List Chat.InvoiceRow) (userId : String) :
    (Chat.findSimilarInvoices parseJson queryEmbedding table userId).length ≤ 10
      ∧ List.Sorted Chat.scoreGE
          (Chat.findSimilarInvoices parseJson queryEmbedding table userId)
      ∧ (∀ r ∈ Chat.findSimilarInvoices parseJson queryEmbedding table userId,
          r.invoice ∈ table ∧ r.invoice.userId = userId
            ∧ r.invoice.status = "processed"
            ∧ ∃ s emb, r.invoice.embeddings = some s ∧ parseJson s = some emb) := by
  refine ⟨List.length_take_le 10 _, ?_, ?_⟩
  · exact List.Pairwise.sublist (List.take_sublist 10 _)
      (List.sorted_insertionSort Chat.scoreGE _)
  · intro r hr
    have hsorted : r ∈ List.insertionSort Chat.scoreGE
        ((Chat.invoicesWithEmbeddings table userId).filterMap
          (Chat.scoreInvoice parseJson queryEmbedding)) :=
      List.take_subset 10 _ hr
    have hsim : r ∈ (Chat.invoicesWithEmbeddings table userId).filterMap
        (Chat.scoreInvoice parseJson queryEmbedding) :=
      (List.perm_insertionSort Chat.scoreGE _).subset hsorted
    obtain ⟨invoice, hinv, hscore⟩ := List.mem_filterMap.mp hsim
    obtain ⟨heq, s, emb, hemb, hparse⟩ :=
      Chat.scoreInvoice_some parseJson queryEmbedding invoice r hscore
    have hfilter := List.mem_filter.mp hinv
    have hprops := hfilter.2
    simp only [Bool.and_eq_true, beq_iff_eq] at hprops
    refine ⟨?_, ?_, ?_, s, emb, ?_, hparse⟩
    · rw [heq]; exact hfilter.1
    · rw [heq]; exact hprops.1.1
    · rw [heq]; exact hprops.1.2
    · rw [heq]; exact hemb

/-! ## Invoice search route (`GET /api/invoices/search`) -/

namespace Search

/-- JavaScript `String.prototype.toLowerCase`. -/
def jsToLower (s : String) : String :=
  String.mk (s.toList.map Char.toLower)

/-- JavaScript `String.prototype.trim`. -/
def jsTrim (s : String) : String :=
  String.mk (((s.toList.dropWhile Char.isWhitespace).reverse.dropWhile
    Char.isWhitespace).reverse)

/-- An `Invoice` row as the search route reads it. -/
structure InvoiceRow where
  id : String
  filename : String
  embeddings : Option String
  extractedData : Option JObj

/-- `invoiceEmbeddings.reduce((sum, val, i) => sum + val * (mockQueryEmbedding[i] || 0), 0)`:
an out-of-range index contributes factor 0. -/
noncomputable def mockDot (emb mock : List ℝ) : ℝ :=
  (emb.enum.map (fun p => p.2 * mock.getD p.1 0)).sum

/-- `invoiceNorm && queryNorm ? dotProduct / (invoiceNorm * queryNorm) : 0`,
the norms being `Math.sqrt` of the square sums. -/
noncomputable def rawSimilarity (emb mock : List ℝ) : ℝ :=
  if Real.sqrt (Chat.sumSquares emb) ≠ 0 ∧ Real.sqrt (Chat.sumSquares mock) ≠ 0 then
    mockDot emb mock / (Real.sqrt (Chat.sumSquares emb) * Real.sqrt (Chat.sumSquares mock))
  else 0

/-- The per-invoice similarity of the search route's scoring `map`:
embeddings absent, or a parse failure (caught), leave similarity `0`; a
parsed embedding scores `rawSimilarity`, boosted by `0.3` when the
lowercased `JSON.stringify` of `extractedData` (the environment primitive
`stringifyLower`) contains the lowercased query. -/
noncomputable def searchSimilarity (parseJson : String → Option (List ℝ))
    (stringifyLower : Option JObj → String)
    (mock : List ℝ) (searchLower : String) (invoice : InvoiceRow) : ℝ :=
  match invoice.embeddings with
  | none => 0
  | some s =>
    match parseJson s with
    | none => 0
    | some emb =>
      if Upload.strContains (stringifyLower invoice.extractedData) searchLower then
        rawSimilarity emb mock + 3 / 10
      else
        rawSimilarity emb mock

/-- The descending order of `sort((a, b) => b.similarity - a.similarity)`. -/
def scoredGE (a b : InvoiceRow × ℝ) : Prop :=
  b.2 ≤ a.2

noncomputable instance : DecidableRel scoredGE :=
  fun a b => inferInstanceAs (Decidable (b.2 ≤ a.2))

/-- The route's result computation for a non-empty query (`query &&
query.trim()`): score every invoice against the mock query embedding
(`mock` stands for `Array.from({length: 1536}, () => Math.random() - 0.5)`),
keep scores above `0.1`, sort descending, take 10, return the invoices;
an empty query returns all invoices. -/
noncomputable def searchResults (parseJson : String → Option (List ℝ))
    (stringifyLower : Option JObj → String)
    (mock : List ℝ) (invoices : List InvoiceRow) (query : String) :
    List InvoiceRow :=
  if query ≠ "" ∧ jsTrim query ≠ "" then
    ((List.insertionSort scoredGE
        ((invoices.map (fun invoice =>
            (invoice, searchSimilarity parseJson stringifyLower mock
              (jsToLower query) invoice))).filter
          (fun item => decide ((1 : ℝ) / 10 < item.2)))).take 10).map
      (fun item => item.1)
  else invoices

/-- A stored invoice whose embeddings JSON is `[1]`. -/
def demoInvoice : InvoiceRow :=
  { id := "inv-1", filename := "a.pdf", embeddings := some "[1]", extractedData := none }

/-- One sample of the route's 1536 `Math.random() - 0.5` draws. -/
noncomputable def randA : List ℝ :=
  (2 / 5) :: List.replicate 1535 0

/-- Another sample of the same random generation. -/
noncomputable def randB : List ℝ :=
  (-(2 / 5)) :: List.replicate 1535 0

theorem sumSquares_replicate_zero (n : ℕ) :
    Chat.sumSquares (List.replicate n (0 : ℝ)) = 0 := by
  rw [Chat.sumSquares, List.map_replicate, List.sum_replicate]
  simp

theorem sumSquares_cons_replicate (x : ℝ) :
    Chat.sumSquares (x :: List.replicate 1535 (0 : ℝ)) = x * x := by
  rw [Chat.sumSquares, List.map_cons, List.sum_cons]
  have h := sumSquares_replicate_zero 1535
  rw [Chat.sumSquares] at h
  rw [h, add_zero]

theorem sqrt_sumSquares_cons (x : ℝ) :
    Real.sqrt (Chat.sumSquares (x :: List.replicate 1535 0)) = |x| := by
  rw [sumSquares_cons_replicate, Real.sqrt_mul_self_eq_abs]

theorem sumSquares_one : Chat.sumSquares [(1 : ℝ)] = 1 := by
  rw [Chat.sumSquares, List.map_cons, List.map_nil, List.sum_cons, List.sum_nil]
  norm_num

theorem mockDot_single (x : ℝ) (rest : List ℝ) :
    mockDot [1] (x :: rest) = x := by
  rw [mockDot]
  show ((1 : ℝ) * (x :: rest).getD 0 0 + ([] : List ℝ).sum) = x
  show (1 : ℝ) * x + 0 = x
  rw [one_mul, add_zero]

theorem rawSimilarity_head (x : ℝ) (hx : x ≠ 0) :
    rawSimilarity [1] (x :: List.replicate 1535 0) = x / |x| := by
  rw [rawSimilarity, sqrt_sumSquares_cons, sumSquares_one, Real.sqrt_one]
  rw [if_pos ⟨one_ne_zero, abs_ne_zero.mpr hx⟩, mockDot_single, one_mul]

end Search

/-- C10: the invoice search endpoint is nondeterministic — there is a fixed
invoice table and a fixed non-empty query for which two admissible samples
of the route's per-request random query embedding (1536 entries, each in
`[-1/2, 1/2)`) make `searchResults` return different result lists, because
the embedding used for scoring is freshly random instead of derived from
the query text. -/
theorem search_random_embedding_nondeterministic :
    ∃ (parseJson : String → Option (List ℝ)) (stringifyLower : Option JObj → String)
      (invoices : List Search.InvoiceRow) (query : String) (mock1 mock2 : List ℝ),
      query ≠ ""
        ∧ mock1.length = 1536 ∧ mock2.length = 1536
        ∧ (∀ x ∈ mock1, -(1 / 2 : ℝ) ≤ x ∧ x < 1 / 2)
        ∧ (∀ x ∈ mock2, -(1 / 2 : ℝ) ≤ x ∧ x < 1 / 2)
        ∧ Search.searchResults parseJson stringifyLower mock1 invoices query
          ≠ Search.searchResults parseJson stringifyLower mock2 invoices query := by
  refine ⟨fun _ => some [1], fun _ => "", [Search.demoInvoice], "zz",
    Search.randA, Search.randB, by decide, ?_, ?_, ?_, ?_, ?_⟩
  · rw [Search.randA, List.length_cons, List.length_replicate]
  · rw [Search.randB, List.length_cons, List.length_replicate]
  · intro x hx
    rw [Search.randA] at hx
    rcases List.mem_cons.mp hx with h | h
    · subst h; constructor <;> norm_num
    · have h0 := List.eq_of_mem_replicate h
      subst h0; constructor <;> norm_num
  · intro x hx
    rw [Search.randB] at hx
    rcases List.mem_cons.mp hx with h | h
    · subst h; constructor <;> norm_num
    · have h0 := List.eq_of_mem_replicate h
      subst h0; constructor <;> norm_num
  · have hsimA : Search.searchSimilarity (fun _ => some [1]) (fun _ => "")
        Search.randA (Search.jsToLower "zz") Search.demoInvoice = 1 := by
      show (if Upload.strContains ((fun (_ : Option JObj) => "") Search.demoInvoice.extractedData)
            (Search.jsToLower "zz") then
          Search.rawSimilarity [1] Search.randA + 3 / 10
        else Search.rawSimilarity [1] Search.randA) = 1
      rw [if_neg (by decide), Search.randA,
        Search.rawSimilarity_head (2 / 5) (by norm_num)]
      rw [abs_of_pos (by norm_num : (0 : ℝ) < 2 / 5)]
      norm_num
    have hsimB : Search.searchSimilarity (fun _ => some [1]) (fun _ => "")
        Search.randB (Search.jsToLower "zz") Search.demoInvoice = -1 := by
      show (if Upload.strContains ((fun (_ : Option JObj) => "") Search.demoInvoice.extractedData)
            (Search.jsToLower "zz") then
          Search.rawSimilarity [1] Search.randB + 3 / 10
        else Search.rawSimilarity [1] Search.randB) = -1
      rw [if_neg (by decide), Search.randB,
        Search.rawSimilarity_head (-(2 / 5)) (by norm_num)]
      rw [abs_of_neg (by norm_num : (-(2 / 5) : ℝ) < 0)]
      norm_num
    have hA : Search.searchResults (fun _ => some [1]) (fun _ => "")
        Search.randA [Search.demoInvoice] "zz" = [Search.demoInvoice] := by
      rw [Search.searchResults, if_pos ⟨by decide, by decide⟩, List.map_cons, List.map_nil,
        hsimA, List.filter_cons, decide_eq_true (by norm_num : (1 : ℝ) / 10 < 1)]
      rfl
    have hB : Search.searchResults (fun _ => some [1]) (fun _ => "")
        Search.randB [Search.demoInvoice] "zz" = [] := by
      rw [Search.searchResults, if_pos ⟨by decide, by decide⟩, List.map_cons, List.map_nil,
        hsimB, List.filter_cons, decide_eq_false (by norm_num : ¬((1 : ℝ) / 10 < -1))]
      rfl
    rw [hA, hB]
    exact List.cons_ne_nil _ _
